import Mathlib

/-!
Verification of the sparse-maintainer-guide mailing-list pipeline.

This file is a shallow embedding, in Lean 4, of the thread-grouping and
topic-classification pipeline of the repository (directly translated from
`src/build_topics.py`, `src/analyze_emails.py` and `src/organize_by_year.py`),
together with theorems settling the behavioural claims made about it.

Strings are modelled as `List Char` (Python `str` over the relevant ASCII
subset); Python regular-expression operations used by the source are
translated into explicit recursive scanners with the same matching semantics.
-/

/-- Python strings are modelled as lists of characters. -/
abbrev Str := List Char

set_option maxRecDepth 100000

/-- Python whitespace (the characters matched by a whitespace class in the
source's patterns, restricted to ASCII). -/
def isSpace (c : Char) : Bool :=
  c = ' ' || c = '\t' || c = '\n' || c = '\r' || c = '\x0b' || c = '\x0c'

/-- Lower-casing of one character (Python `str.lower` on the ASCII and
Latin-1 letters, the alphabets the source data uses). -/
def lowerChar (c : Char) : Char :=
  if 'A' ≤ c && c ≤ 'Z' then Char.ofNat (c.toNat + 32)
  else if 192 ≤ c.toNat && c.toNat ≤ 222 && c.toNat ≠ 215 then Char.ofNat (c.toNat + 32)
  else c

/-- Python `str.lower` (ASCII). -/
def lowerStr (s : Str) : Str := s.map lowerChar

/-- Python `str.strip()`: remove leading and trailing whitespace. -/
def pyStrip (s : Str) : Str :=
  ((s.dropWhile isSpace).reverse.dropWhile isSpace).reverse

/-- `needle in haystack` for Python strings: substring containment. -/
def containsSub (needle haystack : Str) : Bool :=
  match haystack with
  | [] => needle.isEmpty
  | _ :: rest => needle.isPrefixOf haystack || containsSub needle rest

/-- Worker for `stripRe`, structurally recursive on a fuel bound.  Each step
consumes at least three characters of the scanned list, so a fuel equal to the
list's length never runs out before the scan finishes. -/
def stripReAux : Nat → Str → Str
  | 0, l => l
  | _ + 1, [] => []
  | _ + 1, [c] => [c]
  | _ + 1, [c1, c2] => [c1, c2]
  | fuel + 1, c1 :: c2 :: c3 :: rest =>
    if lowerChar c1 = 'r' && lowerChar c2 = 'e' && c3 = ':' then
      stripReAux fuel (rest.dropWhile isSpace)
    else
      c1 :: c2 :: c3 :: rest

/-- `re.sub(r'^(Re:\s*)+', '', s, flags=re.IGNORECASE)`: strip one or more
leading reply markers, each an (any-case) `Re:` followed by optional
whitespace. -/
def stripRe (s : Str) : Str := stripReAux s.length s

/-- Worker for `removeTag`, structurally recursive on a fuel bound.  Each step
consumes at least one character of the scanned list, so a fuel equal to the
list's length never runs out before the scan finishes. -/
def removeTagAux (tag : Str) : Nat → Str → Str
  | 0, l => l
  | _ + 1, [] => []
  | fuel + 1, c :: rest =>
    if c = '[' && tag.isPrefixOf rest && (rest.drop tag.length).any (fun d => d = ']') then
      removeTagAux tag fuel
        ((((rest.drop tag.length).dropWhile (fun d => !(d = ']'))).drop 1).dropWhile isSpace)
    else
      c :: removeTagAux tag fuel rest

/-- `re.sub(r'\[TAG[^\]]*\]\s*', '', s)` for a literal tag word `TAG`:
remove every bracketed tag (an opening bracket, the tag word, any characters
other than a closing bracket, the closing bracket) together with the
whitespace that follows it, scanning left to right; an opening bracket with
no later closing bracket is not a match and is kept. -/
def removeTag (tag : Str) (s : Str) : Str := removeTagAux tag s.length s

/-- Worker for `collapseWs`, structurally recursive on a fuel bound. -/
def collapseWsAux : Nat → Str → Str
  | 0, l => l
  | _ + 1, [] => []
  | fuel + 1, c :: rest =>
    if isSpace c then ' ' :: collapseWsAux fuel (rest.dropWhile isSpace)
    else c :: collapseWsAux fuel rest

/-- `re.sub(r'\s+', ' ', s)`: collapse every maximal run of whitespace into a
single space. -/
def collapseWs (s : Str) : Str := collapseWsAux s.length s

/-- The tag words whose bracketed forms are stripped from subjects. -/
def patchTag : Str := "PATCH".data

def rfcTag : Str := "RFC".data

def gitTag : Str := "GIT".data

/-- `EmailThread._normalize_subject` (src/build_topics.py lines 97-104):
strip repeated reply markers, strip bracketed PATCH/RFC/GIT tags, collapse
whitespace, strip surrounding whitespace, truncate to 100 characters. -/
def normalize_subject (s : Str) : Str :=
  (pyStrip (collapseWs (removeTag gitTag (removeTag rfcTag
    (removeTag patchTag (stripRe s)))))).take 100

/-! ### MD5 (as used by `hashlib.md5` for the thread key)

A direct implementation of MD5 over byte lists, with 32-bit words modelled as
natural numbers reduced modulo `2 ^ 32`. -/

/-- `2 ^ 32`, the modulus of 32-bit words. -/
def w32 : Nat := 4294967296

/-- 32-bit addition. -/
def add32 (a b : Nat) : Nat := (a + b) % w32

/-- 32-bit left rotation by `s` places (valid for words below `2 ^ 32`). -/
def rotl32 (x s : Nat) : Nat := x * 2 ^ s % w32 + x / 2 ^ (32 - s)

/-- 32-bit bitwise complement. -/
def not32 (x : Nat) : Nat := 4294967295 - x

/-- MD5 round function F. -/
def md5F (b c d : Nat) : Nat := Nat.lor (Nat.land b c) (Nat.land (not32 b) d)

/-- MD5 round function G. -/
def md5G (b c d : Nat) : Nat := Nat.lor (Nat.land b d) (Nat.land c (not32 d))

/-- MD5 round function H. -/
def md5H (b c d : Nat) : Nat := Nat.xor (Nat.xor b c) d

/-- MD5 round function I. -/
def md5I (b c d : Nat) : Nat := Nat.xor c (Nat.lor b (not32 d))

/-- The MD5 sine-derived constant table. -/
def md5K : List Nat :=
  [3614090360, 3905402710, 606105819, 3250441966, 4118548399, 1200080426, 2821735955, 4249261313,
   1770035416, 2336552879, 4294925233, 2304563134, 1804603682, 4254626195, 2792965006, 1236535329,
   4129170786, 3225465664, 643717713, 3921069994, 3593408605, 38016083, 3634488961, 3889429448,
   568446438, 3275163606, 4107603335, 1163531501, 2850285829, 4243563512, 1735328473, 2368359562,
   4294588738, 2272392833, 1839030562, 4259657740, 2763975236, 1272893353, 4139469664, 3200236656,
   681279174, 3936430074, 3572445317, 76029189, 3654602809, 3873151461, 530742520, 3299628645,
   4096336452, 1126891415, 2878612391, 4237533241, 1700485571, 2399980690, 4293915773, 2240044497,
   1873313359, 4264355552, 2734768916, 1309151649, 4149444226, 3174756917, 718787259, 3951481745]

/-- The MD5 per-round shift table. -/
def md5S : List Nat :=
  [7, 12, 17, 22, 7, 12, 17, 22, 7, 12, 17, 22, 7, 12, 17, 22,
   5, 9, 14, 20, 5, 9, 14, 20, 5, 9, 14, 20, 5, 9, 14, 20,
   4, 11, 16, 23, 4, 11, 16, 23, 4, 11, 16, 23, 4, 11, 16, 23,
   6, 10, 15, 21, 6, 10, 15, 21, 6, 10, 15, 21, 6, 10, 15, 21]

/-- The running MD5 state: four 32-bit words. -/
structure MD5State where
  a : Nat
  b : Nat
  c : Nat
  d : Nat
deriving DecidableEq

/-- The MD5 initial state. -/
def md5Init : MD5State := ⟨1732584193, 4023233417, 2562383102, 271733878⟩

/-- Four little-endian bytes read as a 32-bit word. -/
def bytesToLE32 (bs : List Nat) : Nat :=
  bs.getD 0 0 + 256 * bs.getD 1 0 + 65536 * bs.getD 2 0 + 16777216 * bs.getD 3 0

/-- A 32-bit word written as four little-endian bytes. -/
def le32Bytes (x : Nat) : List Nat :=
  [x % 256, x / 256 % 256, x / 65536 % 256, x / 16777216 % 256]

/-- A 64-bit value written as eight little-endian bytes. -/
def le64Bytes (x : Nat) : List Nat :=
  le32Bytes (x % w32) ++ le32Bytes (x / w32)

/-- One MD5 round applied to the state, for round index `i` and message
words `M`. -/
def md5Round (M : List Nat) (st : MD5State) (i : Nat) : MD5State :=
  let f :=
    if i < 16 then md5F st.b st.c st.d
    else if i < 32 then md5G st.b st.c st.d
    else if i < 48 then md5H st.b st.c st.d
    else md5I st.b st.c st.d
  let g :=
    if i < 16 then i
    else if i < 32 then (5 * i + 1) % 16
    else if i < 48 then (3 * i + 5) % 16
    else 7 * i % 16
  let tmp := add32 (add32 (add32 st.a f) (md5K.getD i 0)) (M.getD g 0)
  ⟨st.d, add32 st.b (rotl32 tmp (md5S.getD i 0)), st.b, st.c⟩

/-- Process one 64-byte chunk. -/
def md5Chunk (st : MD5State) (chunk : List Nat) : MD5State :=
  let M := (List.range 16).map (fun j => bytesToLE32 ((chunk.drop (4 * j)).take 4))
  let r := (List.range 64).foldl (md5Round M) st
  ⟨add32 st.a r.a, add32 st.b r.b, add32 st.c r.c, add32 st.d r.d⟩

/-- MD5 padding: append `0x80`, zero bytes up to 56 modulo 64, then the bit
length as a 64-bit little-endian value. -/
def md5Pad (msg : List Nat) : List Nat :=
  msg ++ 128 :: List.replicate ((119 - msg.length % 64) % 64) 0 ++
    le64Bytes (8 * msg.length % 18446744073709551616)

/-- Split a byte list into 64-byte chunks (fuel-based). -/
def chunks64 : Nat → List Nat → List (List Nat)
  | 0, _ => []
  | fuel + 1, l => if l.isEmpty then [] else l.take 64 :: chunks64 fuel (l.drop 64)

/-- The 16-byte MD5 digest of a byte list. -/
def md5Bytes (msg : List Nat) : List Nat :=
  let padded := md5Pad msg
  let st := (chunks64 padded.length padded).foldl md5Chunk md5Init
  le32Bytes st.a ++ le32Bytes st.b ++ le32Bytes st.c ++ le32Bytes st.d

/-- One hexadecimal digit, lower case. -/
def hexChar (n : Nat) : Char := "0123456789abcdef".data.getD n '0'

/-- `hashlib.md5(..).hexdigest()`: the digest as 32 lower-case hex characters. -/
def md5hex (msg : List Nat) : Str :=
  ((md5Bytes msg).map (fun b => [hexChar (b / 16), hexChar (b % 16)])).flatten

/-- UTF-8 encoding of one character (Python `str.encode()`). -/
def utf8Char (c : Char) : List Nat :=
  let n := c.toNat
  if n < 128 then [n]
  else if n < 2048 then [192 + n / 64, 128 + n % 64]
  else if n < 65536 then [224 + n / 4096, 128 + n / 64 % 64, 128 + n % 64]
  else [240 + n / 262144, 128 + n / 4096 % 64, 128 + n / 64 % 64, 128 + n % 64]

/-- UTF-8 encoding of a string (Python `str.encode()`). -/
def utf8Encode (s : Str) : List Nat := (s.map utf8Char).flatten

/-- The thread key of a subject (src/build_topics.py lines 305-306):
`hashlib.md5(normalized.lower().encode()).hexdigest()[:16]` where
`normalized` is the normalized subject. -/
def thread_key (subject : Str) : Str :=
  (md5hex (utf8Encode (lowerStr (normalize_subject subject)))).take 16

/-! ### Keyword tables and per-message classification (src/build_topics.py) -/

/-- `SPAM_INDICATORS` (src/build_topics.py lines 21-28). -/
def SPAM_INDICATORS : List Str :=
  ["loan".data, "business loan".data, "funding".data, "lottery".data, "winner".data,
   "inheritance".data, "million dollar".data, "bank transfer".data, "western union".data,
   "urgent reply".data, "dear friend".data, "beneficiary".data, "next of kin".data,
   "atm card".data, "covid fund".data, "charity".data, "donation".data,
   "wohltÃ¤tigkeitsfonds".data, "spende".data, "flota".data, "servicio".data,
   "mailbox full".data, "account suspended".data, "verify your".data, "click here".data,
   "act now".data, "limited time".data, "hello okay".data, "your mailbox".data]

/-- `SPARSE_KEYWORDS` (src/build_topics.py lines 31-41). -/
def SPARSE_KEYWORDS : List Str :=
  ["sparse".data, "checker".data, "__user".data, "__kernel".data, "__iomem".data,
   "__force".data, "__acquires".data, "__releases".data, "__must_hold".data,
   "address space".data, "context".data, "endian".data, "__le".data, "__be".data,
   "bitwise".data, "noderef".data, "type checking".data, "static analysis".data,
   "warning".data, "annotation".data, "lock".data, "mutex".data, "spinlock".data,
   "rcu".data, "srcu".data, "linearize".data, "symbol".data, "parse".data,
   "evaluate".data, "expression".data, "declaration".data, "gcc".data, "clang".data,
   "llvm".data, "compiler".data, "attribute".data, "kbuild".data, "kernel".data,
   "patch".data, "fix".data, "bug".data, "error".data, "overflow".data, "cast".data,
   "pointer".data, "dereference".data, "null".data, "undefined".data, "constexpr".data]

/-- `TOPIC_CATEGORIES` (src/build_topics.py lines 44-86), as ordered pairs of
category id and keyword list; the display titles and descriptions carried
alongside in the source are not used by any classification logic. -/
def TOPIC_CATEGORIES : List (Str × List Str) :=
  [("context_analysis".data,
    ["context analysis".data, "capability analysis".data, "thread safety".data,
     "__acquires".data, "__releases".data, "__must_hold".data, "lockdep".data]),
   ("address_space".data,
    ["address space".data, "__user".data, "__kernel".data, "__iomem".data,
     "noderef".data, "user pointer".data, "kernel pointer".data]),
   ("type_system".data,
    ["type check".data, "bitwise".data, "__le16".data, "__be32".data, "endian".data,
     "cast".data, "typeof".data, "overflow".data, "signedness".data]),
   ("compiler_compat".data,
    ["gcc".data, "clang".data, "llvm".data, "attribute".data, "__attribute__".data,
     "builtin".data, "compiler.h".data, "asm".data]),
   ("kernel_integration".data,
    ["kbuild".data, "make c=".data, "kernel build".data, "linux kernel".data,
     "sparse warning".data, "sparse error".data]),
   ("sparse_internals".data,
    ["linearize".data, "parse.c".data, "evaluate".data, "symbol table".data,
     "expression tree".data, "ssa".data, "basic block".data, "sparse internal".data]),
   ("rfc_proposals".data,
    ["rfc".data, "proposal".data, "introduce".data, "new feature".data,
     "add support".data])]

/-- A parsed message record, restricted to the fields the classification,
threading and aggregation logic reads.  (The date-related fields produced by
the record parser are modelled separately for the parsing claims.) -/
structure Msg where
  subject : Str
  body : Str
  author_name : Str
  author_email : Str
deriving DecidableEq

/-- `TopicBuilder.is_spam` (src/build_topics.py lines 214-230). -/
def is_spam (m : Msg) : Bool :=
  let subject := lowerStr m.subject
  let body := (lowerStr m.body).take 1000
  SPAM_INDICATORS.any (fun ind => containsSub ind subject || containsSub ind body) ||
    ((containsSub "=?utf-8?b?".data subject || containsSub "=?utf-8?q?".data subject) &&
      !SPARSE_KEYWORDS.any (fun kw => containsSub kw subject))

/-- The known-contributor allow list of `is_sparse_related`
(src/build_topics.py lines 243-244). -/
def knownContributors : List Str :=
  ["torvalds".data, "luc van oostenryck".data, "chris li".data,
   "josh triplett".data, "dan carpenter".data, "sparse".data]

/-- `TopicBuilder.is_sparse_related` (src/build_topics.py lines 232-250). -/
def is_sparse_related (m : Msg) : Bool :=
  let subject := lowerStr m.subject
  let body := (lowerStr m.body).take 2000
  SPARSE_KEYWORDS.any (fun kw => containsSub kw subject || containsSub kw body) ||
    knownContributors.any (fun contrib => containsSub contrib (lowerStr m.author_name))

/-- `TopicBuilder.categorize_message` (src/build_topics.py lines 252-265):
independent keyword matching per category over the lowercased subject
concatenated with the bounded lowercased body prefix, with a fallback
single label when nothing matches. -/
def categorize_message (m : Msg) : List Str :=
  let subject := lowerStr m.subject
  let body := (lowerStr m.body).take 2000
  let text := subject ++ ' ' :: body
  let categories := TOPIC_CATEGORIES.filterMap
    (fun cat => if cat.2.any (fun kw => containsSub kw text) then some cat.1 else none)
  if categories.isEmpty then ["general".data] else categories

/-! ### Thread grouping (src/build_topics.py, `EmailThread` and
`TopicBuilder.load_and_process_emails`) -/

/-- `EmailThread` (src/build_topics.py lines 89-108).  The Python participant
and category sets are modelled as insertion-ordered duplicate-free lists. -/
structure EThread where
  subject : Str
  normalized_subject : Str
  messages : List Msg
  participants : List Str
  categories : List Str
deriving DecidableEq

/-- `EmailThread.__init__`. -/
def newThread (subject : Str) : EThread :=
  ⟨subject, normalize_subject subject, [], [], []⟩

/-- `EmailThread.add_message`: append the message and add its author name to
the participant set. -/
def add_message (t : EThread) (m : Msg) : EThread :=
  { t with
    messages := t.messages ++ [m],
    participants :=
      if m.author_name ∈ t.participants then t.participants
      else t.participants ++ [m.author_name] }

/-- Insert one element into a set modelled as a duplicate-free list. -/
def insertNew (l : List Str) (x : Str) : List Str :=
  if x ∈ l then l else l ++ [x]

/-- `thread.categories.update(categories)`. -/
def updateCategories (t : EThread) (cats : List Str) : EThread :=
  { t with categories := cats.foldl insertNew t.categories }

/-- Association-list lookup by key (Python dict indexing). -/
def lookupKey {V : Type} : List (Str × V) → Str → Option V
  | [], _ => none
  | (k, v) :: rest, key => if k = key then some v else lookupKey rest key

/-- The mutable state of `TopicBuilder.load_and_process_emails`: the thread
dictionary (insertion-ordered association list) and the three counters. -/
structure PState where
  threads : List (Str × EThread)
  total_loaded : Nat
  spam_filtered : Nat
  unrelated_filtered : Nat
deriving DecidableEq

/-- The state at the start of a run. -/
def initState : PState := ⟨[], 0, 0, 0⟩

/-- The thread-dictionary update of src/build_topics.py lines 308-312: create
the thread under its key if absent, then `add_message` and update the
category set of the thread stored under that key. -/
def addToThreads : List (Str × EThread) → Str → Str → Msg → List Str → List (Str × EThread)
  | [], key, subject, m, cats =>
    [(key, updateCategories (add_message (newThread subject) m) cats)]
  | (k, t) :: rest, key, subject, m, cats =>
    if k = key then (k, updateCategories (add_message t m) cats) :: rest
    else (k, t) :: addToThreads rest key subject m cats

/-- The per-message body of the load loop of
`TopicBuilder.load_and_process_emails` (src/build_topics.py lines 284-312):
count the parsed record, drop it if spam, drop it if unrelated, otherwise
categorize it and add it to the thread keyed by the hash of its normalized
subject. -/
def process_message (st : PState) (m : Msg) : PState :=
  let st1 : PState := { st with total_loaded := st.total_loaded + 1 }
  if is_spam m then { st1 with spam_filtered := st1.spam_filtered + 1 }
  else if !is_sparse_related m then
    { st1 with unrelated_filtered := st1.unrelated_filtered + 1 }
  else
    { st1 with
      threads :=
        addToThreads st1.threads (thread_key m.subject) m.subject m
          (categorize_message m) }

/-- `TopicBuilder.load_and_process_emails` over the stream of successfully
parsed records, in directory traversal order. -/
def load_and_process (msgs : List Msg) : PState :=
  msgs.foldl process_message initState

/-- The messages of the thread stored under a key (empty when the key is
absent). -/
def threadMsgs (st : PState) (k : Str) : List Msg :=
  match lookupKey st.threads k with
  | some t => t.messages
  | none => []

/-! ### Decision extraction (src/build_topics.py, `extract_key_decisions`) -/

/-- The merged-class outcome phrases (src/build_topics.py line 361). -/
def mergedPhrases : List Str :=
  ["merged".data, "applied".data, "pushed".data, "committed".data]

/-- The rejected-class outcome phrases (src/build_topics.py line 363); the
fourth phrase is written with an explicit apostrophe character. -/
def rejectedPhrases : List Str :=
  ["nack".data, "rejected".data, "not taking".data,
   "won".data ++ Char.ofNat 39 :: "t work".data]

/-- The outcome-keyword scan over the messages of one thread
(src/build_topics.py lines 354-366): for each message in thread order, check
the merged-class phrases, then the rejected-class phrases, then the
accepted-class markers against the lowercased body, overwriting the running
outcome on a match. -/
def extract_outcome (msgs : List Msg) : Option Str :=
  msgs.foldl
    (fun outcome m =>
      let body := lowerStr m.body
      if mergedPhrases.any (fun p => containsSub p body) then some "merged".data
      else if rejectedPhrases.any (fun p => containsSub p body) then some "rejected".data
      else if containsSub "acked-by".data body || containsSub "reviewed-by".data body then
        some "accepted".data
      else outcome)
    none

/-- The outcome class one message qualifies for under the fixed per-message
precedence (merged-class before rejected-class before accepted-class), or
none when the message qualifies for no class.  This is the specification-side
notion used to state what the scan computes. -/
def msg_outcome (m : Msg) : Option Str :=
  let body := lowerStr m.body
  if mergedPhrases.any (fun p => containsSub p body) then some "merged".data
  else if rejectedPhrases.any (fun p => containsSub p body) then some "rejected".data
  else if containsSub "acked-by".data body || containsSub "reviewed-by".data body then
    some "accepted".data
  else none

/-- The significant-thread selection of `extract_key_decisions`
(src/build_topics.py lines 341-350): keep the threads with at least 5
messages and at least 2 participants, sort by message count descending
(stable, as the Python sort is), and take the first 50 for extraction. -/
def significant_threads (threads : List EThread) : List EThread :=
  ((threads.filter (fun t => 5 ≤ t.messages.length && 2 ≤ t.participants.length)).mergeSort
    (fun a b => decide (b.messages.length ≤ a.messages.length))).take 50

/-! ### Contributor counting (src/analyze_emails.py, `EmailAnalyzer.analyze`) -/

/-- A record as read by the analyzer stage, restricted to the field the
contributor counter reads. -/
structure ARecord where
  author_email : Str
deriving DecidableEq

/-- `Counter[key] += 1` on a counter modelled as an insertion-ordered
association list: bump the existing entry or append a new one with count 1. -/
def bumpCount : List (Str × Nat) → Str → List (Str × Nat)
  | [], key => [(key, 1)]
  | (k, n) :: rest, key =>
    if k = key then (k, n + 1) :: rest else (k, n) :: bumpCount rest key

/-- The author-counting loop of `EmailAnalyzer.analyze`
(src/analyze_emails.py lines 117-120): each loaded record bumps the counter
entry of its lowercased author email. -/
def analyzeAuthors (emails : List ARecord) : List (Str × Nat) :=
  emails.foldl (fun counts e => bumpCount counts (lowerStr e.author_email)) []

/-- The sum of all per-contributor counts of a counter. -/
def sumCounts (counts : List (Str × Nat)) : Nat :=
  (counts.map (fun p => p.2)).sum

/-! ### Timestamp parsing (src/build_topics.py, `parse_mbox_file` lines
171-181 and the record construction lines 199-210)

The four `datetime.strptime` formats tried by the source are modelled as
explicit token parsers with the matching semantics of the CPython
implementation (leftmost match, full consumption, the exact digit classes of
each directive, and the calendar validation performed by the datetime
constructor). -/

/-- A decimal digit. -/
def isDigit (c : Char) : Bool := '0' ≤ c && c ≤ '9'

/-- The numeric value of a decimal digit. -/
def digitVal (c : Char) : Nat := c.toNat - 48

/-- A parsed timestamp: the fields `datetime.strptime` produces for the four
formats in use (UTC offset in seconds east when the format carries `%z`). -/
structure PDate where
  year : Nat
  month : Nat
  day : Nat
  hour : Nat
  minute : Nat
  second : Nat
  tzoff : Option Int
deriving DecidableEq

/-- The abbreviated weekday names matched by `%a` (case-insensitive). -/
def wdayNames : List Str :=
  ["mon".data, "tue".data, "wed".data, "thu".data, "fri".data, "sat".data, "sun".data]

/-- The abbreviated month names matched by `%b` (case-insensitive), in month
order. -/
def monNames : List Str :=
  ["jan".data, "feb".data, "mar".data, "apr".data, "may".data, "jun".data,
   "jul".data, "aug".data, "sep".data, "oct".data, "nov".data, "dec".data]

/-- `%a`: consume an abbreviated weekday name (the parsed value is unused by
the formats in play). -/
def parseWdayTok (s : Str) : Option Str :=
  match s with
  | c1 :: c2 :: c3 :: rest =>
    if wdayNames.any (fun w => w = [lowerChar c1, lowerChar c2, lowerChar c3]) then some rest
    else none
  | _ => none

/-- `%b`: consume an abbreviated month name, yielding the month number. -/
def parseMonTok (s : Str) : Option (Nat × Str) :=
  match s with
  | c1 :: c2 :: c3 :: rest =>
    match monNames.indexOf? [lowerChar c1, lowerChar c2, lowerChar c3] with
    | some i => some (i + 1, rest)
    | none => none
  | _ => none

/-- A literal character of the format. -/
def parseLit (c : Char) (s : Str) : Option Str :=
  match s with
  | d :: rest => if d = c then some rest else none
  | [] => none

/-- Whitespace in the format: one or more whitespace characters. -/
def parseWsTok (s : Str) : Option Str :=
  match s with
  | c :: rest => if isSpace c then some (rest.dropWhile isSpace) else none
  | [] => none

/-- `%d`: day of month, by the alternation `3[01]|[12]\d|0[1-9]|[1-9]| [1-9]`
in that order. -/
def parseDayTok (s : Str) : Option (Nat × Str) :=
  match s with
  | c1 :: c2 :: rest =>
    if c1 = '3' && (c2 = '0' || c2 = '1') then some (30 + digitVal c2, rest)
    else if (c1 = '1' || c1 = '2') && isDigit c2 then some (digitVal c1 * 10 + digitVal c2, rest)
    else if c1 = '0' && '1' ≤ c2 && c2 ≤ '9' then some (digitVal c2, rest)
    else if '1' ≤ c1 && c1 ≤ '9' then some (digitVal c1, c2 :: rest)
    else if c1 = ' ' && '1' ≤ c2 && c2 ≤ '9' then some (digitVal c2, rest)
    else none
  | [c1] => if '1' ≤ c1 && c1 ≤ '9' then some (digitVal c1, []) else none
  | [] => none

/-- `%Y`: exactly four digits. -/
def parseYearTok (s : Str) : Option (Nat × Str) :=
  match s with
  | c1 :: c2 :: c3 :: c4 :: rest =>
    if isDigit c1 && isDigit c2 && isDigit c3 && isDigit c4 then
      some (digitVal c1 * 1000 + digitVal c2 * 100 + digitVal c3 * 10 + digitVal c4, rest)
    else none
  | _ => none

/-- `%H`: hour, by the alternation `2[0-3]|[0-1]\d|\d` in that order. -/
def parseHourTok (s : Str) : Option (Nat × Str) :=
  match s with
  | c1 :: c2 :: rest =>
    if c1 = '2' && '0' ≤ c2 && c2 ≤ '3' then some (20 + digitVal c2, rest)
    else if (c1 = '0' || c1 = '1') && isDigit c2 then some (digitVal c1 * 10 + digitVal c2, rest)
    else if isDigit c1 then some (digitVal c1, c2 :: rest)
    else none
  | [c1] => if isDigit c1 then some (digitVal c1, []) else none
  | [] => none

/-- `%M`: minute, by the alternation `[0-5]\d|\d` in that order. -/
def parseMinuteTok (s : Str) : Option (Nat × Str) :=
  match s with
  | c1 :: c2 :: rest =>
    if '0' ≤ c1 && c1 ≤ '5' && isDigit c2 then some (digitVal c1 * 10 + digitVal c2, rest)
    else if isDigit c1 then some (digitVal c1, c2 :: rest)
    else none
  | [c1] => if isDigit c1 then some (digitVal c1, []) else none
  | [] => none

/-- `%S`: second, by the alternation `6[0-1]|[0-5]\d|\d` in that order (the
leap-second values 60 and 61 pass the pattern and are rejected later by the
datetime constructor). -/
def parseSecondTok (s : Str) : Option (Nat × Str) :=
  match s with
  | c1 :: c2 :: rest =>
    if c1 = '6' && (c2 = '0' || c2 = '1') then some (60 + digitVal c2, rest)
    else if '0' ≤ c1 && c1 ≤ '5' && isDigit c2 then some (digitVal c1 * 10 + digitVal c2, rest)
    else if isDigit c1 then some (digitVal c1, c2 :: rest)
    else none
  | [c1] => if isDigit c1 then some (digitVal c1, []) else none
  | [] => none

/-- The optional fractional part of a `%z` offset: a dot and one to six
digits (the value only contributes sub-second offset and is dropped). -/
def tzFracOk (s : Str) : Bool :=
  match s with
  | '.' :: ds => 1 ≤ ds.length && ds.length ≤ 6 && ds.all isDigit
  | _ => false

/-- The optional seconds of a `%z` offset together with the end of input:
empty, or an optional colon, two seconds digits `[0-5]\d`, and an optional
fraction, with nothing after. -/
def parseTzSeconds (s : Str) : Option Nat :=
  match s with
  | [] => some 0
  | _ =>
    let s1 := match s with
      | ':' :: rest => rest
      | _ => s
    match s1 with
    | s1c :: s2c :: rest =>
      if '0' ≤ s1c && s1c ≤ '5' && isDigit s2c && (rest = [] || tzFracOk rest) then
        some (digitVal s1c * 10 + digitVal s2c)
      else none
    | _ => none

/-- `%z` as the final directive of the format: sign, two hour digits, an
optional colon, two minute digits `[0-5]\d`, optional seconds, consuming the
whole remaining input; the literal `Z` (case-sensitive) means UTC.  The
resulting offset must be strictly less than 24 hours in magnitude (the bound
the datetime timezone constructor enforces). -/
def parseTzTail (s : Str) : Option Int :=
  match s with
  | ['Z'] => some 0
  | sign :: h1 :: h2 :: rest =>
    if (sign = '+' || sign = '-') && isDigit h1 && isDigit h2 then
      let rest1 := match rest with
        | ':' :: r => r
        | _ => rest
      match rest1 with
      | m1 :: m2 :: rest2 =>
        if '0' ≤ m1 && m1 ≤ '5' && isDigit m2 then
          match parseTzSeconds rest2 with
          | some secs =>
            let total := (digitVal h1 * 10 + digitVal h2) * 3600 +
              (digitVal m1 * 10 + digitVal m2) * 60 + secs
            if total < 86400 then
              some (if sign = '-' then -(total : Int) else (total : Int))
            else none
          | none => none
        else none
      | _ => none
    else none
  | _ => none

/-- Whether a year is a leap year. -/
def isLeap (y : Nat) : Bool := y % 4 = 0 && (y % 100 ≠ 0 || y % 400 = 0)

/-- Days in a month. -/
def daysInMonth (y m : Nat) : Nat :=
  if m = 2 then (if isLeap y then 29 else 28)
  else if m = 4 || m = 6 || m = 9 || m = 11 then 30
  else 31

/-- The validation performed by the datetime constructor on the matched
fields: a positive year, a day within the month, and a second below 60. -/
def mkPDate (year month day hour minute second : Nat) (tz : Option Int) : Option PDate :=
  if 1 ≤ year && 1 ≤ day && day ≤ daysInMonth year month && second ≤ 59 then
    some ⟨year, month, day, hour, minute, second, tz⟩
  else none

/-- Run one of the four formats of src/build_topics.py lines 175-176 on an
input.  A format is identified by whether it carries the leading
weekday-and-comma (`%a, `) and whether it ends in an offset (` %z`); between
those it is `%d %b %Y %H:%M:%S` for all four. -/
def runFmt (hasWday hasTz : Bool) (s : Str) : Option PDate := do
  let r0 ← if hasWday then do
      let r1 ← parseWdayTok s
      let r2 ← parseLit ',' r1
      parseWsTok r2
    else some s
  let (day, r3) ← parseDayTok r0
  let r4 ← parseWsTok r3
  let (mon, r5) ← parseMonTok r4
  let r6 ← parseWsTok r5
  let (year, r7) ← parseYearTok r6
  let r8 ← parseWsTok r7
  let (hour, r9) ← parseHourTok r8
  let r10 ← parseLit ':' r9
  let (minute, r11) ← parseMinuteTok r10
  let r12 ← parseLit ':' r11
  let (second, r13) ← parseSecondTok r12
  if hasTz then do
    let r14 ← parseWsTok r13
    let off ← parseTzTail r14
    mkPDate year mon day hour minute second (some off)
  else
    if r13.isEmpty then mkPDate year mon day hour minute second none else none

/-- The fixed priority order of the four formats (src/build_topics.py lines
175-176), as (has-weekday, has-offset) flags. -/
def dateFormats : List (Bool × Bool) :=
  [(true, true), (false, true), (true, false), (false, false)]

/-- Whether `re.sub(r'\s*\([^)]*\)\s*$', '', s)` matches at the very start of
`s`: optional whitespace, a parenthesized run of non-closing-parenthesis
characters, then only whitespace to the end. -/
def tailCommentAt (l : Str) : Bool :=
  match l.dropWhile isSpace with
  | '(' :: rest =>
    match rest.dropWhile (fun d => !(d = ')')) with
    | ')' :: rest2 => (rest2.dropWhile isSpace).isEmpty
    | _ => false
  | _ => false

/-- `re.sub(r'\s*\([^)]*\)\s*$', '', s)`: delete the trailing parenthesized
comment, if any, from the leftmost position where the pattern matches. -/
def stripTrailingComment : Str → Str
  | [] => []
  | c :: rest =>
    if tailCommentAt (c :: rest) then [] else c :: stripTrailingComment rest

/-- The cleaned date string of src/build_topics.py line 174. -/
def clean_date_str (s : Str) : Str := pyStrip (stripTrailingComment s)

/-- The date-parsing fragment of `parse_mbox_file` (src/build_topics.py lines
172-181): nothing for an empty header, otherwise clean the string and try the
four formats in order, the first success providing the value. -/
def parse_date (date_str : Str) : Option PDate :=
  if date_str.isEmpty then none
  else dateFormats.findSome? (fun f => runFmt f.1 f.2 (clean_date_str date_str))

/-- The record returned by `parse_mbox_file` (src/build_topics.py lines
199-210), restricted to the fields with claim-relevant content; the author
fields are those computed earlier in the function and are passed through. -/
structure Record where
  subject : Str
  date : Option PDate
  date_str : Str
  body : Str
  author_name : Str
  author_email : Str
  year : Str
  month : Str
deriving DecidableEq

/-- The record construction of `parse_mbox_file`: drop the message when the
subject is missing or blank (src/build_topics.py lines 153-154), otherwise
produce the record, with the parsed date (unset when no format matched), the
body capped to 5000 characters, and the year and month taken from the
directory path of the file. -/
def parse_mbox_core (subject date_str body author_name author_email dirYear dirMonth : Str) :
    Option Record :=
  if subject.isEmpty || (pyStrip subject).isEmpty then none
  else
    some ⟨subject, parse_date date_str, date_str, body.take 5000,
      author_name, author_email, dirYear, dirMonth⟩

/-! ### Year partitioning (src/organize_by_year.py, `organize_by_year`
lines 31-70)

This stage consumes the topics JSON: a mapping from category id to thread
dictionaries.  Dictionary fields are modelled as `Option` values (`none` for
an absent key).  For the fields only ever read under a Python truthiness
test, a JSON `null` value is modelled as `some []`, which is
behaviour-equivalent (both are falsy and neither is otherwise used); the
producing stage in fact always writes strings for the key fields. -/

/-- A message dictionary as read from the topics JSON, restricted to the keys
the year extraction reads. -/
structure MEntry where
  date : Option Str
  timestamp : Option Str
  date_str : Option Str
deriving DecidableEq

/-- A thread dictionary as read from the topics JSON, restricted to the keys
the year partitioning reads. -/
structure TThread where
  normalized_subject : Option Str
  subject : Option Str
  year : Option Int
  first_date : Option Str
  messages : List MEntry
deriving DecidableEq

/-- The deduplication key (src/organize_by_year.py line 38):
`thread.get('normalized_subject', thread.get('subject', ''))`. -/
def tkey (t : TThread) : Str :=
  match t.normalized_subject with
  | some v => v
  | none =>
    match t.subject with
    | some v => v
    | none => []

/-- Python truthiness of an optional integer field. -/
def truthyInt (o : Option Int) : Bool :=
  match o with
  | some y => !(y = 0)
  | none => false

/-- Python truthiness of an optional string field. -/
def truthyStr (o : Option Str) : Bool :=
  match o with
  | some s => !s.isEmpty
  | none => false

/-- Whether the year pattern `(20\d{2}|199\d)` matches at the start of the
input, yielding the matched four characters. -/
def yearPatAt (l : Str) : Option Str :=
  match l with
  | c1 :: c2 :: c3 :: c4 :: _ =>
    if c1 = '2' && c2 = '0' && isDigit c3 && isDigit c4 then some [c1, c2, c3, c4]
    else if c1 = '1' && c2 = '9' && c3 = '9' && isDigit c4 then some [c1, c2, c3, c4]
    else none
  | _ => none

/-- `re.search(r'(20\d{2}|199\d)', s)`: the leftmost match of the year
pattern. -/
def searchYear : Str → Option Str
  | [] => none
  | c :: rest =>
    match yearPatAt (c :: rest) with
    | some y => some y
    | none => searchYear rest

/-- Python `str` of an integer. -/
def strOfInt (y : Int) : Str := (toString y).data

/-- `first_msg.get('date', first_msg.get('timestamp', first_msg.get('date_str', '')))`. -/
def msgTimestamp (m : MEntry) : Str :=
  match m.date with
  | some v => v
  | none =>
    match m.timestamp with
    | some v => v
    | none =>
      match m.date_str with
      | some v => v
      | none => []

/-- The year label of a thread (src/organize_by_year.py lines 43-62): the
stringified `year` field when truthy, else the leftmost year pattern in a
truthy `first_date`, else the leftmost year pattern in the first message
timestamp chain when messages exist, else `unknown`. -/
def thread_year (t : TThread) : Str :=
  let yA : Option Str :=
    if truthyInt t.year then some (strOfInt (t.year.getD 0))
    else if truthyStr t.first_date then searchYear (t.first_date.getD [])
    else none
  let yB : Option Str :=
    match yA with
    | some v => some v
    | none =>
      match t.messages with
      | [] => none
      | fm :: _ =>
        let ts := msgTimestamp fm
        if ts.isEmpty then none else searchYear ts
  match yB with
  | some v => v
  | none => "unknown".data

/-- The state of the partitioning loop: the set of processed thread keys and
the per-year buckets of (primary category, thread) entries.  The
`defaultdict` is modelled as a first-touch-ordered association list; the
per-year statistics counters it also carries duplicate the bucket lengths
and are not modelled. -/
structure OState where
  processed : List Str
  yearly : List (Str × List (Str × TThread))
deriving DecidableEq

/-- Append an entry to the bucket of a year, creating the bucket on first
touch (the `defaultdict` access of src/organize_by_year.py line 67). -/
def appendToYear : List (Str × List (Str × TThread)) → Str → Str × TThread →
    List (Str × List (Str × TThread))
  | [], y, e => [(y, [e])]
  | (k, l) :: rest, y, e =>
    if k = y then (k, l ++ [e]) :: rest else (k, l) :: appendToYear rest y e

/-- The loop body of src/organize_by_year.py lines 36-70 for one thread of
one category: skip it when its key was already processed, otherwise record
the key and append the thread, tagged with this category as its
`primary_category`, to the bucket of its year. -/
def processThread (st : OState) (cat : Str) (t : TThread) : OState :=
  if tkey t ∈ st.processed then st
  else
    { processed := st.processed ++ [tkey t],
      yearly := appendToYear st.yearly (thread_year t) (cat, t) }

/-- `organize_by_year` over the topics mapping (category id to thread list,
in JSON order): the nested loop of src/organize_by_year.py lines 35-70. -/
def organize_topics (topics : List (Str × List TThread)) : OState :=
  topics.foldl (fun st ct => ct.2.foldl (fun st2 t => processThread st2 ct.1 t) st) ⟨[], []⟩

/-- All (primary category, thread) entries across every year bucket. -/
def allEntries (st : OState) : List (Str × TThread) :=
  (st.yearly.map (fun p => p.2)).flatten

/-- The input threads flattened in traversal order, each tagged with its
category. -/
def flatTopics (topics : List (Str × List TThread)) : List (Str × TThread) :=
  (topics.map (fun ct => ct.2.map (fun t => (ct.1, t)))).flatten

/-! ## Theorems -/

/-- Claim C2, counterexample: subject normalization is not idempotent.  For
the subject `[PATCH] Re: foo`, one normalization removes the tag and exposes
a reply marker, yielding `Re: foo`, and a second normalization then strips
that marker, yielding `foo`. -/
theorem normalize_subject_not_idempotent :
    normalize_subject "[PATCH] Re: foo".data = "Re: foo".data ∧
    normalize_subject (normalize_subject "[PATCH] Re: foo".data) = "foo".data ∧
    normalize_subject (normalize_subject "[PATCH] Re: foo".data) ≠
      normalize_subject "[PATCH] Re: foo".data := by
  refine ⟨by decide, by decide, by decide⟩

/-- Claim C2, amended: normalization is idempotent exactly on the subjects
whose normalized form is left unchanged by each individual stage — no further
leading reply marker, no remaining bracketed PATCH/RFC/GIT tag, whitespace
already collapsed and stripped.  (The truncation to 100 characters is
idempotent unconditionally.)  In general idempotence fails, as the
counterexample shows. -/
theorem normalize_subject_idempotent_on_stage_fixed (s : Str)
    (h1 : stripRe (normalize_subject s) = normalize_subject s)
    (h2 : removeTag patchTag (normalize_subject s) = normalize_subject s)
    (h3 : removeTag rfcTag (normalize_subject s) = normalize_subject s)
    (h4 : removeTag gitTag (normalize_subject s) = normalize_subject s)
    (h5 : collapseWs (normalize_subject s) = normalize_subject s)
    (h6 : pyStrip (normalize_subject s) = normalize_subject s) :
    normalize_subject (normalize_subject s) = normalize_subject s := by
  have hlen : (normalize_subject s).length ≤ 100 := by
    rw [normalize_subject]
    exact List.length_take_le 100 _
  calc normalize_subject (normalize_subject s)
      = (pyStrip (collapseWs (removeTag gitTag (removeTag rfcTag
          (removeTag patchTag (stripRe (normalize_subject s))))))).take 100 := rfl
    _ = (normalize_subject s).take 100 := by rw [h1, h2, h3, h4, h5, h6]
    _ = normalize_subject s := List.take_of_length_le hlen

/-- Witness for the amended claim C2 at a concrete already-normal subject. -/
theorem normalize_subject_idempotent_on_stage_fixed_witness :
    normalize_subject (normalize_subject "sparse: fix warning".data) =
      normalize_subject "sparse: fix warning".data :=
  normalize_subject_idempotent_on_stage_fixed "sparse: fix warning".data
    (by decide) (by decide) (by decide) (by decide) (by decide) (by decide)

/-- Claim C9: the thread key is the MD5 of the lower-cased normalized subject
truncated to 16 hex characters, so any two subjects whose normalized forms
agree up to letter case receive the same key and land in the same thread
bucket, although normalization itself preserves case. -/
theorem thread_key_case_insensitive (s1 s2 : Str)
    (h : lowerStr (normalize_subject s1) = lowerStr (normalize_subject s2)) :
    thread_key s1 = thread_key s2 := by
  show (md5hex (utf8Encode (lowerStr (normalize_subject s1)))).take 16 =
    (md5hex (utf8Encode (lowerStr (normalize_subject s2)))).take 16
  rw [h]

/-- Witness for claim C9 at two subjects differing only in letter case. -/
theorem thread_key_case_insensitive_witness :
    thread_key "SPARSE: Fix Type Cast Warning".data =
      thread_key "sparse: fix type cast warning".data :=
  thread_key_case_insensitive "SPARSE: Fix Type Cast Warning".data
    "sparse: fix type cast warning".data (by decide)

/-- Claim C5: classification never returns an empty label list, and a record
matching no topic-category keyword gets exactly the single fallback label
`general`. -/
theorem categorize_message_fallback (m : Msg) :
    categorize_message m ≠ [] ∧
    ((∀ cat ∈ TOPIC_CATEGORIES, ∀ kw ∈ cat.2,
        containsSub kw (lowerStr m.subject ++ ' ' :: (lowerStr m.body).take 2000) = false) →
      categorize_message m = ["general".data]) := by
  constructor
  · rw [categorize_message]
    split
    · simp
    · next h => simpa using h
  · intro hno
    rw [categorize_message]
    have hnil : (TOPIC_CATEGORIES.filterMap fun cat =>
        if cat.2.any (fun kw => containsSub kw
            (lowerStr m.subject ++ ' ' :: (lowerStr m.body).take 2000)) then
          some cat.1
        else none) = [] := by
      rw [List.filterMap_eq_nil_iff]
      intro cat hcat
      have hany : cat.2.any (fun kw => containsSub kw
          (lowerStr m.subject ++ ' ' :: (lowerStr m.body).take 2000)) = false := by
        rw [List.any_eq_false]
        intro kw hkw
        simp [hno cat hcat kw hkw]
      simp [hany]
    simp only [hnil]
    simp

/-- Witness for claim C5 at a record matching no topic keyword. -/
theorem categorize_message_fallback_witness :
    categorize_message ⟨"hi".data, "".data, "bob".data, "b@x".data⟩ ≠ [] ∧
    categorize_message ⟨"hi".data, "".data, "bob".data, "b@x".data⟩ = ["general".data] := by
  refine ⟨(categorize_message_fallback ⟨"hi".data, "".data, "bob".data, "b@x".data⟩).1,
    (categorize_message_fallback ⟨"hi".data, "".data, "bob".data, "b@x".data⟩).2 ?_⟩
  decide

/-- Claim C1, counterexample: in a three-message thread whose second message
contains `nack` and whose third contains `applied`, the recorded outcome is
`merged`, not `rejected` — the scan has no early exit, so the match in the
third message overwrites the one in the second. -/
theorem extract_outcome_example_not_rejected :
    containsSub "nack".data
      (lowerStr (⟨"t".data, "I will NACK this change".data, "b".data, "b@x".data⟩ : Msg).body)
      = true ∧
    containsSub "applied".data
      (lowerStr (⟨"t".data, "ok, Applied now, thanks".data, "c".data, "c@x".data⟩ : Msg).body)
      = true ∧
    extract_outcome
      [⟨"t".data, "looks interesting".data, "a".data, "a@x".data⟩,
       ⟨"t".data, "I will NACK this change".data, "b".data, "b@x".data⟩,
       ⟨"t".data, "ok, Applied now, thanks".data, "c".data, "c@x".data⟩]
      = some "merged".data ∧
    "merged".data ≠ "rejected".data := by
  refine ⟨by decide, by decide, by decide, by decide⟩

/-- The last element of a list grown at the front. -/
theorem getLast?_cons_or {α : Type} (x : α) (l : List α) :
    (x :: l).getLast? = l.getLast?.or (some x) := by
  cases l with
  | nil => rfl
  | cons b t =>
    rw [List.getLast?_cons_cons]
    rcases e : (b :: t).getLast? with _ | v
    · simp [List.getLast?_eq_none_iff] at e
    · rfl

/-- One step of the outcome scan overrides the accumulator exactly when the
message qualifies for some outcome class. -/
theorem outcome_step_or (acc : Option Str) (m : Msg) :
    (let body := lowerStr m.body
     if mergedPhrases.any (fun p => containsSub p body) then some "merged".data
     else if rejectedPhrases.any (fun p => containsSub p body) then some "rejected".data
     else if containsSub "acked-by".data body || containsSub "reviewed-by".data body then
       some "accepted".data
     else acc) = (msg_outcome m).or acc := by
  simp only [msg_outcome]
  split_ifs <;> rfl

/-- The outcome scan started from any accumulator computes the last
per-message outcome, falling back to the accumulator. -/
theorem outcome_foldl_or (msgs : List Msg) (acc : Option Str) :
    msgs.foldl
      (fun outcome m =>
        let body := lowerStr m.body
        if mergedPhrases.any (fun p => containsSub p body) then some "merged".data
        else if rejectedPhrases.any (fun p => containsSub p body) then some "rejected".data
        else if containsSub "acked-by".data body || containsSub "reviewed-by".data body then
          some "accepted".data
        else outcome)
      acc = ((msgs.filterMap msg_outcome).getLast?).or acc := by
  induction msgs generalizing acc with
  | nil => simp
  | cons m rest ih =>
    rw [List.foldl_cons, ih, outcome_step_or, List.filterMap_cons]
    cases ho : msg_outcome m with
    | none => simp [ho]
    | some v =>
      simp only [ho, getLast?_cons_or, Option.or_assoc]

/-- Claim C1, amended: the outcome scan applies the fixed per-message
precedence (merged-class, then rejected-class, then accepted-class), but each
qualifying message overwrites the running outcome, so the LAST qualifying
message in thread scan order determines the recorded outcome — not the
first. -/
theorem extract_outcome_last_write_wins (msgs : List Msg) :
    extract_outcome msgs = (msgs.filterMap msg_outcome).getLast? := by
  rw [extract_outcome, outcome_foldl_or, Option.or_none]

/-- Bumping a counter raises the total by exactly one. -/
theorem sumCounts_bumpCount (c : List (Str × Nat)) (k : Str) :
    sumCounts (bumpCount c k) = sumCounts c + 1 := by
  induction c with
  | nil => rfl
  | cons p rest ih =>
    obtain ⟨k0, n⟩ := p
    rw [bumpCount]
    split_ifs with h
    · simp [sumCounts]
      omega
    · simp only [sumCounts, List.map_cons, List.sum_cons] at ih ⊢
      omega

/-- Bumping a counter touches exactly the bumped key. -/
theorem lookup_bumpCount_getD (c : List (Str × Nat)) (key k : Str) :
    (lookupKey (bumpCount c key) k).getD 0 =
      (lookupKey c k).getD 0 + (if k = key then 1 else 0) := by
  induction c with
  | nil =>
    by_cases h : key = k
    · subst h
      simp [bumpCount, lookupKey]
    · have h2 : ¬k = key := fun hh => h hh.symm
      simp [bumpCount, lookupKey, h, h2]
  | cons p rest ih =>
    obtain ⟨k0, n⟩ := p
    by_cases h : k0 = key
    · subst h
      by_cases hk : k0 = k
      · subst hk
        simp [bumpCount, lookupKey]
      · have h2 : ¬k = k0 := fun hh => hk hh.symm
        simp [bumpCount, lookupKey, hk, h2]
    · by_cases hk : k0 = k
      · subst hk
        have h2 : ¬k0 = key := h
        simp [bumpCount, lookupKey, h, h2]
      · simp [bumpCount, lookupKey, h, hk, ih]

/-- The author-counting fold, from any starting counter: totals grow by the
number of records. -/
theorem analyzeAuthors_sum_aux (l : List ARecord) :
    ∀ acc : List (Str × Nat),
      sumCounts (l.foldl (fun c e => bumpCount c (lowerStr e.author_email)) acc) =
        sumCounts acc + l.length := by
  induction l with
  | nil => intro acc; simp
  | cons e rest ih =>
    intro acc
    rw [List.foldl_cons, ih, sumCounts_bumpCount, List.length_cons]
    omega

/-- The author-counting fold, from any starting counter: each key holds its
starting value plus the number of records keyed to it. -/
theorem analyzeAuthors_count_aux (l : List ARecord) :
    ∀ (acc : List (Str × Nat)) (k : Str),
      (lookupKey (l.foldl (fun c e => bumpCount c (lowerStr e.author_email)) acc) k).getD 0 =
        (lookupKey acc k).getD 0 + (l.map (fun e => lowerStr e.author_email)).count k := by
  induction l with
  | nil => intro acc k; simp
  | cons e rest ih =>
    intro acc k
    rw [List.foldl_cons, ih, lookup_bumpCount_getD, List.map_cons, List.count_cons]
    by_cases h : k = lowerStr e.author_email
    · simp [h]
      omega
    · have h2 : ¬lowerStr e.author_email = k := fun hh => h hh.symm
      simp [h, h2]

/-- Claim C8: every record the analyzer retains bumps exactly one contributor
key — its lower-cased author email — so each key's count is the number of
records keyed to it, and the counts sum to the total number of retained
records. -/
theorem contributor_counts_sum (emails : List ARecord) :
    sumCounts (analyzeAuthors emails) = emails.length ∧
    (∀ k, (lookupKey (analyzeAuthors emails) k).getD 0 =
      (emails.map (fun e => lowerStr e.author_email)).count k) := by
  constructor
  · rw [analyzeAuthors, analyzeAuthors_sum_aux]
    simp [sumCounts]
  · intro k
    rw [analyzeAuthors, analyzeAuthors_count_aux]
    simp [lookupKey]

/-- Updating the category set of a thread leaves its messages unchanged. -/
theorem updateCategories_messages (t : EThread) (cats : List Str) :
    (updateCategories t cats).messages = t.messages := rfl

/-- The bucket under the updated key gains exactly the new message at the
end. -/
theorem threadMsgs_addToThreads (ts : List (Str × EThread)) (key subject : Str)
    (m : Msg) (cats : List Str) (a b c : Nat) :
    threadMsgs ⟨addToThreads ts key subject m cats, a, b, c⟩ key =
      threadMsgs ⟨ts, a, b, c⟩ key ++ [m] := by
  induction ts with
  | nil =>
    simp [addToThreads, threadMsgs, lookupKey, updateCategories, add_message, newThread]
  | cons p rest ih =>
    obtain ⟨k0, t0⟩ := p
    by_cases h : k0 = key
    · subst h
      simp [addToThreads, threadMsgs, lookupKey, updateCategories, add_message]
    · simp only [addToThreads, if_neg, h]
      simp only [threadMsgs, lookupKey, if_neg h] at ih ⊢
      simpa using ih

/-- Buckets under other keys are untouched by the update. -/
theorem threadMsgs_addToThreads_other (ts : List (Str × EThread)) (key subject : Str)
    (m : Msg) (cats : List Str) (a b c : Nat) (k : Str) (hk : k ≠ key) :
    threadMsgs ⟨addToThreads ts key subject m cats, a, b, c⟩ k =
      threadMsgs ⟨ts, a, b, c⟩ k := by
  induction ts with
  | nil =>
    have h2 : ¬key = k := fun h => hk h.symm
    simp [addToThreads, threadMsgs, lookupKey, h2]
  | cons p rest ih =>
    obtain ⟨k0, t0⟩ := p
    by_cases h : k0 = key
    · subst h
      have h2 : ¬k0 = k := fun hh => hk hh.symm
      simp [addToThreads, threadMsgs, lookupKey, updateCategories, add_message, h2]
    · by_cases h2 : k0 = k
      · subst h2
        simp [addToThreads, threadMsgs, lookupKey, h]
      · simp only [addToThreads, if_neg h]
        simp only [threadMsgs, lookupKey, if_neg h2] at ih ⊢
        exact ih

/-- The bucket contents only depend on the thread dictionary. -/
theorem threadMsgs_eta (st : PState) (k : Str) :
    threadMsgs st k = threadMsgs ⟨st.threads, 0, 0, 0⟩ k := rfl

/-- A message found in a bucket after one load-loop step was already there,
or is the message just processed — in which case that message passed both
filters. -/
theorem threadMsgs_process_mem (st : PState) (m x : Msg) (k : Str)
    (h : x ∈ threadMsgs (process_message st m) k) :
    x ∈ threadMsgs st k ∨
      (x = m ∧ is_spam m = false ∧ is_sparse_related m = true) := by
  by_cases hs : is_spam m
  · left
    simpa [process_message, hs, threadMsgs] using h
  · by_cases hr : is_sparse_related m
    · rw [threadMsgs_eta] at h
      have hth : (process_message st m).threads =
          addToThreads st.threads (thread_key m.subject) m.subject m (categorize_message m) := by
        simp [process_message, hs, hr]
      rw [hth] at h
      by_cases hk : k = thread_key m.subject
      · subst hk
        rw [threadMsgs_addToThreads] at h
        rcases List.mem_append.mp h with h1 | h1
        · left
          rw [threadMsgs_eta]
          exact h1
        · right
          refine ⟨by simpa using h1, by simpa using hs, by simpa using hr⟩
      · rw [threadMsgs_addToThreads_other _ _ _ _ _ _ _ _ _ hk] at h
        left
        rw [threadMsgs_eta]
        exact h
    · left
      simpa [process_message, hs, hr, threadMsgs] using h

/-- One load-loop step never removes a message from a bucket. -/
theorem threadMsgs_process_mono (st : PState) (m x : Msg) (k : Str)
    (h : x ∈ threadMsgs st k) :
    x ∈ threadMsgs (process_message st m) k := by
  by_cases hs : is_spam m
  · simpa [process_message, hs, threadMsgs] using h
  · by_cases hr : is_sparse_related m
    · have hth : (process_message st m).threads =
          addToThreads st.threads (thread_key m.subject) m.subject m (categorize_message m) := by
        simp [process_message, hs, hr]
      rw [threadMsgs_eta, hth]
      by_cases hk : k = thread_key m.subject
      · subst hk
        rw [threadMsgs_addToThreads]
        exact List.mem_append.mpr (Or.inl (by rw [← threadMsgs_eta]; exact h))
      · rw [threadMsgs_addToThreads_other _ _ _ _ _ _ _ _ _ hk, ← threadMsgs_eta]
        exact h
    · simpa [process_message, hs, hr, threadMsgs] using h

/-- Bucket membership persists across the rest of the load loop. -/
theorem threadMsgs_foldl_mono (msgs : List Msg) :
    ∀ (st : PState) (x : Msg) (k : Str), x ∈ threadMsgs st k →
      x ∈ threadMsgs (msgs.foldl process_message st) k := by
  induction msgs with
  | nil => intro st x k h; simpa using h
  | cons m rest ih =>
    intro st x k h
    rw [List.foldl_cons]
    exact ih _ x k (threadMsgs_process_mono st m x k h)

/-- Every retained message of the input stream ends up in the bucket keyed by
the hash of its normalized subject. -/
theorem retained_in_own_bucket (msgs : List Msg) :
    ∀ (st : PState) (m : Msg), m ∈ msgs → is_spam m = false → is_sparse_related m = true →
      m ∈ threadMsgs (msgs.foldl process_message st) (thread_key m.subject) := by
  induction msgs with
  | nil => intro st m h; simp at h
  | cons a rest ih =>
    intro st m hmem hs hr
    rw [List.foldl_cons]
    rcases List.mem_cons.mp hmem with rfl | hmem2
    · refine threadMsgs_foldl_mono rest _ m _ ?_
      have hth : (process_message st m).threads =
          addToThreads st.threads (thread_key m.subject) m.subject m (categorize_message m) := by
        simp [process_message, hs, hr]
      rw [threadMsgs_eta, hth, threadMsgs_addToThreads]
      simp
    · exact ih _ m hmem2 hs hr

/-- Claim C3: thread assignment depends only on the normalized subject.  The
key is a pure function of the normalized subject (the truncated MD5 of its
lower-cased form), so any two retained records of one run whose subjects
normalize equally receive the same key and land in the same thread bucket. -/
theorem thread_assignment_pure (msgs : List Msg) (m1 m2 : Msg)
    (h1 : m1 ∈ msgs) (h2 : m2 ∈ msgs)
    (hs1 : is_spam m1 = false) (hr1 : is_sparse_related m1 = true)
    (hs2 : is_spam m2 = false) (hr2 : is_sparse_related m2 = true)
    (hn : normalize_subject m1.subject = normalize_subject m2.subject) :
    thread_key m1.subject = thread_key m2.subject ∧
    m1 ∈ threadMsgs (load_and_process msgs) (thread_key m1.subject) ∧
    m2 ∈ threadMsgs (load_and_process msgs) (thread_key m1.subject) := by
  have hkey : thread_key m1.subject = thread_key m2.subject := by
    show (md5hex (utf8Encode (lowerStr (normalize_subject m1.subject)))).take 16 =
      (md5hex (utf8Encode (lowerStr (normalize_subject m2.subject)))).take 16
    rw [hn]
  refine ⟨hkey, ?_, ?_⟩
  · exact retained_in_own_bucket msgs initState m1 h1 hs1 hr1
  · rw [hkey]
    exact retained_in_own_bucket msgs initState m2 h2 hs2 hr2

/-- Witness for claim C3 at two retained records whose subjects differ only
by a reply marker. -/
theorem thread_assignment_pure_witness :
    (⟨"sparse: fix bug".data, "see patch".data, "alice".data, "a@x".data⟩ : Msg) ∈
      threadMsgs
        (load_and_process
          [⟨"sparse: fix bug".data, "see patch".data, "alice".data, "a@x".data⟩,
           ⟨"Re: sparse: fix bug".data, "ack, kernel".data, "bob".data, "b@x".data⟩])
        (thread_key "sparse: fix bug".data) ∧
    (⟨"Re: sparse: fix bug".data, "ack, kernel".data, "bob".data, "b@x".data⟩ : Msg) ∈
      threadMsgs
        (load_and_process
          [⟨"sparse: fix bug".data, "see patch".data, "alice".data, "a@x".data⟩,
           ⟨"Re: sparse: fix bug".data, "ack, kernel".data, "bob".data, "b@x".data⟩])
        (thread_key "sparse: fix bug".data) := by
  have h := thread_assignment_pure
    [⟨"sparse: fix bug".data, "see patch".data, "alice".data, "a@x".data⟩,
     ⟨"Re: sparse: fix bug".data, "ack, kernel".data, "bob".data, "b@x".data⟩]
    ⟨"sparse: fix bug".data, "see patch".data, "alice".data, "a@x".data⟩
    ⟨"Re: sparse: fix bug".data, "ack, kernel".data, "bob".data, "b@x".data⟩
    (by decide) (by decide) (by decide) (by decide) (by decide) (by decide) (by decide)
  exact ⟨h.2.1, h.2.2⟩

/-- Buckets of the load loop contain no spam: invariant form. -/
theorem no_spam_in_buckets_aux (msgs : List Msg) :
    ∀ st : PState, (∀ (k : Str) (x : Msg), x ∈ threadMsgs st k → is_spam x = false) →
      ∀ (k : Str) (x : Msg), x ∈ threadMsgs (msgs.foldl process_message st) k →
        is_spam x = false := by
  induction msgs with
  | nil =>
    intro st hinv k x hx
    exact hinv k x (by simpa using hx)
  | cons m rest ih =>
    intro st hinv k x hx
    rw [List.foldl_cons] at hx
    refine ih _ ?_ k x hx
    intro k' x' hx'
    rcases threadMsgs_process_mem st m x' k' hx' with h1 | ⟨rfl, hsm, _⟩
    · exact hinv k' x' h1
    · exact hsm

/-- Claim C4: a record whose lower-cased subject or lower-cased body prefix
contains a denylisted spam keyword is flagged spam (regardless of any
relevance keyword elsewhere in it), and the load loop then only counts it as
spam-filtered: the thread dictionary — the source of all topic labels and
statistics — is untouched, and no spam record ever appears in any thread
bucket of a run. -/
theorem spam_dropped_before_classification :
    (∀ (st : PState) (m : Msg),
      SPAM_INDICATORS.any (fun ind =>
          containsSub ind (lowerStr m.subject) ||
          containsSub ind ((lowerStr m.body).take 1000)) = true →
      is_spam m = true ∧
      (process_message st m).threads = st.threads ∧
      (process_message st m).spam_filtered = st.spam_filtered + 1) ∧
    (∀ (msgs : List Msg) (k : Str) (x : Msg),
      x ∈ threadMsgs (load_and_process msgs) k → is_spam x = false) := by
  constructor
  · intro st m h
    have hs : is_spam m = true := by
      simp only [is_spam]
      rw [h]
      simp
    exact ⟨hs, by simp [process_message, hs], by simp [process_message, hs]⟩
  · intro msgs k x hx
    refine no_spam_in_buckets_aux msgs initState ?_ k x hx
    intro k' x' hx'
    simp [threadMsgs, initState, lookupKey] at hx'

set_option maxHeartbeats 2000000 in
/-- Witness for claim C4: the spec example record, whose subject carries the
`inheritance` denylist keyword, is flagged and dropped even though its body
contains `sparse`; and a retained clean record is spam-free. -/
theorem spam_dropped_before_classification_witness :
    is_spam ⟨"URGENT: inheritance fund transfer".data, "about sparse".data,
      "x".data, "x@y".data⟩ = true ∧
    (process_message initState ⟨"URGENT: inheritance fund transfer".data,
      "about sparse".data, "x".data, "x@y".data⟩).threads = initState.threads ∧
    (process_message initState ⟨"URGENT: inheritance fund transfer".data,
      "about sparse".data, "x".data, "x@y".data⟩).spam_filtered =
      initState.spam_filtered + 1 ∧
    is_spam ⟨"sparse: fix bug".data, "see patch".data, "alice".data, "a@x".data⟩ = false := by
  have h := spam_dropped_before_classification
  have h1 := h.1 initState
    ⟨"URGENT: inheritance fund transfer".data, "about sparse".data, "x".data, "x@y".data⟩
    (by decide)
  refine ⟨h1.1, h1.2.1, h1.2.2, ?_⟩
  exact h.2 [⟨"sparse: fix bug".data, "see patch".data, "alice".data, "a@x".data⟩]
    (thread_key "sparse: fix bug".data)
    ⟨"sparse: fix bug".data, "see patch".data, "alice".data, "a@x".data⟩
    (retained_in_own_bucket
      [⟨"sparse: fix bug".data, "see patch".data, "alice".data, "a@x".data⟩] initState
      ⟨"sparse: fix bug".data, "see patch".data, "alice".data, "a@x".data⟩
      (by simp) (by decide) (by decide))

/-- Updating the category set of a thread leaves its participants
unchanged. -/
theorem updateCategories_participants (t : EThread) (cats : List Str) :
    (updateCategories t cats).participants = t.participants := rfl

/-- Adding a message preserves duplicate-freedom of the participant set. -/
theorem add_message_participants_nodup (t : EThread) (m : Msg)
    (h : t.participants.Nodup) : (add_message t m).participants.Nodup := by
  show (if m.author_name ∈ t.participants then t.participants
    else t.participants ++ [m.author_name]).Nodup
  split_ifs with hm
  · exact h
  · simp [List.nodup_append]
    exact ⟨h, fun hx => hm hx⟩

/-- The thread-dictionary update preserves duplicate-freedom of every
participant set. -/
theorem addToThreads_participants_nodup (key subject : Str) (m : Msg) (cats : List Str) :
    ∀ ts : List (Str × EThread), (∀ q ∈ ts, (q : Str × EThread).2.participants.Nodup) →
      ∀ q ∈ addToThreads ts key subject m cats, (q : Str × EThread).2.participants.Nodup := by
  intro ts
  induction ts with
  | nil =>
    intro _ q hq
    simp only [addToThreads, List.mem_singleton] at hq
    rw [hq]
    show (updateCategories (add_message (newThread subject) m) cats).participants.Nodup
    rw [updateCategories_participants]
    exact add_message_participants_nodup _ m (by simp [newThread])
  | cons p rest ih =>
    obtain ⟨k0, t0⟩ := p
    intro hts q hq
    by_cases h : k0 = key
    · subst h
      rw [addToThreads, if_pos rfl] at hq
      rcases List.mem_cons.mp hq with rfl | hq2
      · show (updateCategories (add_message t0 m) cats).participants.Nodup
        rw [updateCategories_participants]
        exact add_message_participants_nodup t0 m (hts (k0, t0) (List.mem_cons_self _ _))
      · exact hts q (List.mem_cons_of_mem _ hq2)
    · rw [addToThreads, if_neg h] at hq
      rcases List.mem_cons.mp hq with rfl | hq2
      · exact hts (k0, t0) (List.mem_cons_self _ _)
      · exact ih (fun q2 hq2b => hts q2 (List.mem_cons_of_mem _ hq2b)) q hq2

/-- One load-loop step preserves duplicate-freedom of every participant
set. -/
theorem process_threads_nodup (st : PState) (m : Msg)
    (h : ∀ q ∈ st.threads, (q : Str × EThread).2.participants.Nodup) :
    ∀ q ∈ (process_message st m).threads, (q : Str × EThread).2.participants.Nodup := by
  intro q hq
  by_cases hs : is_spam m
  · have hth : (process_message st m).threads = st.threads := by simp [process_message, hs]
    rw [hth] at hq
    exact h q hq
  · by_cases hr : is_sparse_related m
    · have hth : (process_message st m).threads =
          addToThreads st.threads (thread_key m.subject) m.subject m (categorize_message m) := by
        simp [process_message, hs, hr]
      rw [hth] at hq
      exact addToThreads_participants_nodup _ _ _ _ st.threads h q hq
    · have hth : (process_message st m).threads = st.threads := by
        simp [process_message, hs, hr]
      rw [hth] at hq
      exact h q hq

/-- The whole load loop preserves duplicate-freedom of every participant
set. -/
theorem load_threads_nodup (msgs : List Msg) :
    ∀ st : PState, (∀ q ∈ st.threads, (q : Str × EThread).2.participants.Nodup) →
      ∀ q ∈ (msgs.foldl process_message st).threads,
        (q : Str × EThread).2.participants.Nodup := by
  induction msgs with
  | nil => intro st h q hq; exact h q (by simpa using hq)
  | cons m rest ih =>
    intro st h q hq
    rw [List.foldl_cons] at hq
    exact ih _ (process_threads_nodup st m h) q hq

/-- A successful dictionary lookup returns a stored entry. -/
theorem lookupKey_mem {V : Type} :
    ∀ (ls : List (Str × V)) (k : Str) (v : V), lookupKey ls k = some v → (k, v) ∈ ls := by
  intro ls
  induction ls with
  | nil => intro k v h; simp [lookupKey] at h
  | cons p rest ih =>
    obtain ⟨k0, v0⟩ := p
    intro k v h
    rw [lookupKey] at h
    by_cases hk : k0 = k
    · rw [if_pos hk] at h
      subst hk
      obtain rfl : v0 = v := by simpa using h
      simp
    · rw [if_neg hk] at h
      exact List.mem_cons_of_mem _ (ih k v h)

/-- Claim C6: every thread selected as significant meets both thresholds (at
least 5 messages and at least 2 participants — participant sets built by the
load loop are duplicate-free, so their length is the distinct-participant
count), the selection never includes a thread below either threshold, and the
selected list is ranked by message count descending. -/
theorem significant_threads_thresholds (threads : List EThread) (msgs : List Msg) :
    (∀ t ∈ significant_threads threads,
      5 ≤ t.messages.length ∧ 2 ≤ t.participants.length) ∧
    List.Sorted (fun a b => b.messages.length ≤ a.messages.length)
      (significant_threads threads) ∧
    (∀ (k : Str) (t : EThread), lookupKey (load_and_process msgs).threads k = some t →
      t.participants.Nodup) := by
  refine ⟨?_, ?_, ?_⟩
  · intro t ht
    rw [significant_threads] at ht
    have h1 := List.mem_of_mem_take ht
    have h2 := (List.mergeSort_perm _ _).mem_iff.mp h1
    have h3 := List.of_mem_filter h2
    simpa using h3
  · rw [significant_threads]
    have hs := @List.sorted_mergeSort EThread
      (fun a b : EThread => decide (b.messages.length ≤ a.messages.length))
      (fun a b c h1 h2 => by simp at *; omega)
      (fun a b => by simp; omega)
      (threads.filter fun t => 5 ≤ t.messages.length && 2 ≤ t.participants.length)
    have hp : List.Sorted (fun a b : EThread => b.messages.length ≤ a.messages.length)
        ((threads.filter fun t => 5 ≤ t.messages.length && 2 ≤ t.participants.length).mergeSort
          (fun a b : EThread => decide (b.messages.length ≤ a.messages.length))) := by
      simpa using hs
    exact hp.sublist (List.take_sublist 50 _)
  · intro k t hl
    exact load_threads_nodup msgs initState (by simp [initState]) (k, t) (lookupKey_mem _ k t hl)

set_option maxHeartbeats 4000000 in
/-- Witness for claim C6: a five-message two-participant thread is selected
and meets both thresholds, and a thread dictionary built by a concrete run
has a duplicate-free participant set. -/
theorem significant_threads_thresholds_witness :
    (5 ≤ (⟨"t".data, "t".data,
        [⟨"t".data, [], "a".data, "a@x".data⟩, ⟨"t".data, [], "a".data, "a@x".data⟩,
         ⟨"t".data, [], "a".data, "a@x".data⟩, ⟨"t".data, [], "a".data, "a@x".data⟩,
         ⟨"t".data, [], "b".data, "b@x".data⟩],
        ["a".data, "b".data], []⟩ : EThread).messages.length ∧
      2 ≤ (⟨"t".data, "t".data,
        [⟨"t".data, [], "a".data, "a@x".data⟩, ⟨"t".data, [], "a".data, "a@x".data⟩,
         ⟨"t".data, [], "a".data, "a@x".data⟩, ⟨"t".data, [], "a".data, "a@x".data⟩,
         ⟨"t".data, [], "b".data, "b@x".data⟩],
        ["a".data, "b".data], []⟩ : EThread).participants.length) ∧
    (⟨"sparse: fix bug".data, "sparse: fix bug".data,
      [⟨"sparse: fix bug".data, "see patch".data, "alice".data, "a@x".data⟩],
      ["alice".data], ["general".data]⟩ : EThread).participants.Nodup := by
  have h := significant_threads_thresholds
    [⟨"t".data, "t".data,
      [⟨"t".data, [], "a".data, "a@x".data⟩, ⟨"t".data, [], "a".data, "a@x".data⟩,
       ⟨"t".data, [], "a".data, "a@x".data⟩, ⟨"t".data, [], "a".data, "a@x".data⟩,
       ⟨"t".data, [], "b".data, "b@x".data⟩],
      ["a".data, "b".data], []⟩]
    [⟨"sparse: fix bug".data, "see patch".data, "alice".data, "a@x".data⟩]
  constructor
  · have e1 : List.filter (fun t => 5 ≤ t.messages.length && 2 ≤ t.participants.length)
        [(⟨"t".data, "t".data,
          [⟨"t".data, [], "a".data, "a@x".data⟩, ⟨"t".data, [], "a".data, "a@x".data⟩,
           ⟨"t".data, [], "a".data, "a@x".data⟩, ⟨"t".data, [], "a".data, "a@x".data⟩,
           ⟨"t".data, [], "b".data, "b@x".data⟩],
          ["a".data, "b".data], []⟩ : EThread)] =
        [⟨"t".data, "t".data,
          [⟨"t".data, [], "a".data, "a@x".data⟩, ⟨"t".data, [], "a".data, "a@x".data⟩,
           ⟨"t".data, [], "a".data, "a@x".data⟩, ⟨"t".data, [], "a".data, "a@x".data⟩,
           ⟨"t".data, [], "b".data, "b@x".data⟩],
          ["a".data, "b".data], []⟩] := by decide
    have e2 : significant_threads
        [⟨"t".data, "t".data,
          [⟨"t".data, [], "a".data, "a@x".data⟩, ⟨"t".data, [], "a".data, "a@x".data⟩,
           ⟨"t".data, [], "a".data, "a@x".data⟩, ⟨"t".data, [], "a".data, "a@x".data⟩,
           ⟨"t".data, [], "b".data, "b@x".data⟩],
          ["a".data, "b".data], []⟩] =
        [⟨"t".data, "t".data,
          [⟨"t".data, [], "a".data, "a@x".data⟩, ⟨"t".data, [], "a".data, "a@x".data⟩,
           ⟨"t".data, [], "a".data, "a@x".data⟩, ⟨"t".data, [], "a".data, "a@x".data⟩,
           ⟨"t".data, [], "b".data, "b@x".data⟩],
          ["a".data, "b".data], []⟩] := by
      rw [significant_threads, e1, List.mergeSort_singleton]
      rfl
    exact h.1 _ (by rw [e2]; exact List.mem_cons_self _ _)
  · have e3 : (load_and_process
        [⟨"sparse: fix bug".data, "see patch".data, "alice".data, "a@x".data⟩]).threads =
        [("ac6d28c3351c3b58".data,
          ⟨"sparse: fix bug".data, "sparse: fix bug".data,
            [⟨"sparse: fix bug".data, "see patch".data, "alice".data, "a@x".data⟩],
            ["alice".data], ["general".data]⟩)] := by decide
    exact h.2.2 "ac6d28c3351c3b58".data
      ⟨"sparse: fix bug".data, "sparse: fix bug".data,
        [⟨"sparse: fix bug".data, "see patch".data, "alice".data, "a@x".data⟩],
        ["alice".data], ["general".data]⟩
      (by rw [e3, lookupKey]; simp)

/-- Claim C7: timestamp parsing tries the four known formats in their fixed
priority order and the first format that parses wins; when no format matches,
the timestamp is left unset and the record is still produced, with the year
and month fields carrying the directory-derived values for callers to fall
back on. -/
theorem parse_date_first_match_and_fallback :
    (∀ (s : Str) (l1 l2 : List (Bool × Bool)) (f : Bool × Bool) (d : PDate),
      dateFormats = l1 ++ f :: l2 →
      (∀ g ∈ l1, runFmt g.1 g.2 (clean_date_str s) = none) →
      runFmt f.1 f.2 (clean_date_str s) = some d →
      s.isEmpty = false →
      parse_date s = some d) ∧
    (∀ (subject date_str body author_name author_email dirYear dirMonth : Str),
      (∀ g ∈ dateFormats, runFmt g.1 g.2 (clean_date_str date_str) = none) →
      subject.isEmpty = false → (pyStrip subject).isEmpty = false →
      parse_mbox_core subject date_str body author_name author_email dirYear dirMonth =
        some ⟨subject, none, date_str, body.take 5000, author_name, author_email,
          dirYear, dirMonth⟩) := by
  constructor
  · intro s l1 l2 f d heq hnone hsome hne
    rw [parse_date, if_neg (by simp [hne]), heq, List.findSome?_append]
    have h1 : l1.findSome? (fun g => runFmt g.1 g.2 (clean_date_str s)) = none := by
      rw [List.findSome?_eq_none_iff]
      exact hnone
    rw [h1, Option.none_or, List.findSome?_cons, hsome]
  · intro subject date_str body author_name author_email dirYear dirMonth hnone hs1 hs2
    have hpd : parse_date date_str = none := by
      rw [parse_date]
      split_ifs with h
      · rfl
      · rw [List.findSome?_eq_none_iff]
        exact hnone
    rw [parse_mbox_core, if_neg (by simp [hs1, hs2]), hpd]

/-- Witness for claim C7: the first format (with a weekday) fails on a
weekday-less date header, the second format parses it, and that value wins;
and an unparsable date header still yields a record with an unset timestamp
and the directory-derived period fields. -/
theorem parse_date_first_match_and_fallback_witness :
    parse_date "15 Mar 2021 12:34:56 +0100".data =
      some ⟨2021, 3, 15, 12, 34, 56, some (3600 : Int)⟩ ∧
    parse_mbox_core "sparse: fix".data "not a date".data "hello".data
        "alice".data "a@x".data "2007".data "03-March".data =
      some ⟨"sparse: fix".data, none, "not a date".data, "hello".data,
        "alice".data, "a@x".data, "2007".data, "03-March".data⟩ := by
  have h := parse_date_first_match_and_fallback
  constructor
  · exact h.1 "15 Mar 2021 12:34:56 +0100".data
      [(true, true)] [(true, false), (false, false)] (false, true)
      ⟨2021, 3, 15, 12, 34, 56, some (3600 : Int)⟩
      (by decide) (by decide) (by decide) (by decide)
  · have h2 := h.2 "sparse: fix".data "not a date".data "hello".data
      "alice".data "a@x".data "2007".data "03-March".data
      (by decide) (by decide) (by decide)
    rw [h2]
    decide

/-- Appending an entry to a year bucket adds exactly that entry to the
flattened bucket contents, up to order. -/
theorem allEntries_appendToYear_perm (yearly : List (Str × List (Str × TThread)))
    (y : Str) (e : Str × TThread) :
    List.Perm (((appendToYear yearly y e).map (fun p => p.2)).flatten)
      ((yearly.map (fun p => p.2)).flatten ++ [e]) := by
  induction yearly with
  | nil => simp [appendToYear]
  | cons q rest ih =>
    obtain ⟨k0, l0⟩ := q
    by_cases h : k0 = y
    · subst h
      rw [appendToYear, if_pos rfl]
      simp only [List.map_cons, List.flatten_cons]
      rw [List.append_assoc, List.append_assoc]
      exact List.Perm.append_left l0 List.perm_append_comm
    · rw [appendToYear, if_neg h]
      simp only [List.map_cons, List.flatten_cons]
      rw [List.append_assoc]
      exact List.Perm.append_left l0 ih

/-- The nested category-and-thread loop is the fold of the flattened,
category-tagged traversal. -/
theorem organize_topics_foldl_aux :
    ∀ (topics : List (Str × List TThread)) (st : OState),
      topics.foldl (fun s ct => ct.2.foldl (fun s2 t => processThread s2 ct.1 t) s) st =
        (flatTopics topics).foldl (fun s e => processThread s e.1 e.2) st := by
  intro topics
  induction topics with
  | nil => intro st; rfl
  | cons ct rest ih =>
    intro st
    rw [List.foldl_cons, ih]
    have hflat : flatTopics (ct :: rest) = ct.2.map (fun t => (ct.1, t)) ++ flatTopics rest := by
      simp [flatTopics]
    rw [hflat, List.foldl_append, List.foldl_map]

/-- The partitioning fold, from any state whose processed set is exactly the
key set of its emitted entries: emitted keys stay duplicate-free, and an
entry is emitted from the remaining input exactly when it is the first
element of that input carrying its key (and the key is still fresh). -/
theorem organize_fold_aux (l : List (Str × TThread)) :
    ∀ st : OState,
      ((allEntries st).map (fun e => tkey e.2)).Nodup →
      (∀ k : Str, k ∈ st.processed ↔ k ∈ (allEntries st).map (fun e => tkey e.2)) →
      ((allEntries (l.foldl (fun s e => processThread s e.1 e.2) st)).map
          (fun e => tkey e.2)).Nodup ∧
      (∀ (c : Str) (t : TThread),
        (c, t) ∈ allEntries (l.foldl (fun s e => processThread s e.1 e.2) st) ↔
          ((c, t) ∈ allEntries st ∨
            (tkey t ∉ st.processed ∧
              l.find? (fun p => decide (tkey p.2 = tkey t)) = some (c, t)))) := by
  induction l with
  | nil =>
    intro st hnd hiff
    refine ⟨hnd, fun c t => ?_⟩
    simp
  | cons e0 rest ih =>
    obtain ⟨c0, t0⟩ := e0
    intro st hnd hiff
    rw [List.foldl_cons]
    by_cases h0 : tkey t0 ∈ st.processed
    · have hst : processThread st c0 t0 = st := by simp [processThread, h0]
      rw [hst]
      obtain ⟨ihn, ihm⟩ := ih st hnd hiff
      refine ⟨ihn, fun c t => ?_⟩
      rw [ihm c t]
      by_cases hk : tkey t0 = tkey t
      · rw [List.find?_cons_of_pos _ (by simp [hk])]
        constructor
        · rintro (hm | ⟨hnp, _⟩)
          · exact Or.inl hm
          · exact absurd (hk ▸ h0) hnp
        · rintro (hm | ⟨hnp, _⟩)
          · exact Or.inl hm
          · exact absurd (hk ▸ h0) hnp
      · rw [List.find?_cons_of_neg _ (by simp [hk])]
    · have hst : processThread st c0 t0 =
          ⟨st.processed ++ [tkey t0], appendToYear st.yearly (thread_year t0) (c0, t0)⟩ := by
        simp [processThread, h0]
      have hperm : List.Perm (allEntries (processThread st c0 t0))
          (allEntries st ++ [(c0, t0)]) := by
        rw [hst]
        exact allEntries_appendToYear_perm st.yearly (thread_year t0) (c0, t0)
      have hproc1 : (processThread st c0 t0).processed = st.processed ++ [tkey t0] := by
        rw [hst]
      have hkey0 : tkey t0 ∉ (allEntries st).map (fun e => tkey e.2) :=
        fun hc => h0 ((hiff _).mpr hc)
      have hnd1 : ((allEntries (processThread st c0 t0)).map (fun e => tkey e.2)).Nodup := by
        refine ((hperm.map _).nodup_iff).mpr ?_
        rw [List.map_append]
        refine List.Nodup.append hnd (List.nodup_singleton _) ?_
        intro x hx hx2
        rw [List.map_cons, List.map_nil, List.mem_singleton] at hx2
        subst hx2
        exact hkey0 hx
      have hiff1 : ∀ k : Str, k ∈ (processThread st c0 t0).processed ↔
          k ∈ (allEntries (processThread st c0 t0)).map (fun e => tkey e.2) := by
        intro k
        rw [hproc1, (hperm.map (fun e => tkey e.2)).mem_iff, List.map_append,
          List.map_cons, List.map_nil, List.mem_append, List.mem_append,
          List.mem_singleton, hiff k]
      obtain ⟨ihn, ihm⟩ := ih (processThread st c0 t0) hnd1 hiff1
      refine ⟨ihn, fun c t => ?_⟩
      rw [ihm c t]
      have hmem1 : (c, t) ∈ allEntries (processThread st c0 t0) ↔
          ((c, t) ∈ allEntries st ∨ (c, t) = (c0, t0)) := by
        rw [hperm.mem_iff]
        simp
      rw [hmem1, hproc1]
      by_cases hk : tkey t0 = tkey t
      · rw [List.find?_cons_of_pos _ (by simp [hk])]
        constructor
        · rintro ((hm | heq) | ⟨hnp, _⟩)
          · exact Or.inl hm
          · right
            refine ⟨hk ▸ h0, ?_⟩
            rw [heq]
          · exfalso
            apply hnp
            simp [hk.symm]
        · rintro (hm | ⟨hnp, hf⟩)
          · exact Or.inl (Or.inl hm)
          · exact Or.inl (Or.inr (Option.some.inj hf).symm)
      · rw [List.find?_cons_of_neg _ (by simp [hk])]
        constructor
        · rintro ((hm | heq) | ⟨hnp, hf⟩)
          · exact Or.inl hm
          · exfalso
            apply hk
            exact (congrArg (fun p : Str × TThread => tkey p.2) heq).symm
          · right
            refine ⟨?_, hf⟩
            intro hc
            apply hnp
            simp [hc]
        · rintro (hm | ⟨hnp, hf⟩)
          · exact Or.inl (Or.inl hm)
          · right
            refine ⟨?_, hf⟩
            simp only [List.mem_append, List.mem_singleton]
            rintro (hc | hc)
            · exact hnp hc
            · exact hk hc.symm

/-- Claim C10: across all year buckets, every thread key appears at most
once, and an entry is emitted exactly when it is the first occurrence of its
deduplication key (the normalized subject, falling back to the raw subject)
in the category-tagged traversal — that first occurrence's category becoming
the thread's `primary_category`. -/
theorem year_partition_dedup (topics : List (Str × List TThread)) :
    ((allEntries (organize_topics topics)).map (fun e => tkey e.2)).Nodup ∧
    (∀ (c : Str) (t : TThread),
      (c, t) ∈ allEntries (organize_topics topics) ↔
        (flatTopics topics).find? (fun p => decide (tkey p.2 = tkey t)) = some (c, t)) := by
  have heq : organize_topics topics =
      (flatTopics topics).foldl (fun s e => processThread s e.1 e.2) ⟨[], []⟩ := by
    rw [organize_topics]
    exact organize_topics_foldl_aux topics ⟨[], []⟩
  obtain ⟨hn, hm⟩ := organize_fold_aux (flatTopics topics) ⟨[], []⟩
    (by simp [allEntries]) (by simp [allEntries])
  rw [heq]
  refine ⟨hn, fun c t => ?_⟩
  rw [hm c t]
  simp [allEntries]

/-- Witness for claim C10: a thread listed under two categories is emitted
once, under the first category encountered. -/
theorem year_partition_dedup_witness :
    ("cat1".data,
      (⟨some "x".data, some "x".data, some (2020 : Int), none, []⟩ : TThread)) ∈
      allEntries (organize_topics
        [("cat1".data, [⟨some "x".data, some "x".data, some (2020 : Int), none, []⟩]),
         ("cat2".data, [⟨some "x".data, some "x".data, some (2020 : Int), none, []⟩])]) := by
  refine ((year_partition_dedup
    [("cat1".data, [⟨some "x".data, some "x".data, some (2020 : Int), none, []⟩]),
     ("cat2".data, [⟨some "x".data, some "x".data, some (2020 : Int), none, []⟩])]).2
    "cat1".data ⟨some "x".data, some "x".data, some (2020 : Int), none, []⟩).mpr ?_
  decide
